import Mathlib

/-!
Shallow embedding of the core logic of a social-photo backend
(FastAPI + SQLAlchemy application), together with proofs about it.

The embedded modules are:
  app/src/repository/comments.py  (thread assembly, comment update/delete)
  app/src/repository/images.py    (tag attach/detach, cache refresh, read_images)
  app/src/repository/rates.py     (rating creation, per-image and all-images averages)
  app/src/repository/tags.py      (tag lookup and creation)
  app/src/services/roles.py       (role-based access gate)
  app/src/schemas/rates.py        (response validator round_avg_rate)

The database session is modelled as an explicit record of rows (DB); each
repository function takes the state and returns its result together with the
successor state and the list of cache operations it performed.  Raised
exceptions (HTTPException, AttributeError) are modelled with Except.
Row classes whose defining module (src/database/models.py, src/schemas/tags.py,
src/conf/config.py) is not part of the source tree are modelled from the
data-model section of the spec; such definitions say so in their doc comment.
Timestamp bookkeeping columns (created_at/updated_at) are kept only where a
verified property depends on ordering by them (comments); elsewhere they are
omitted because no verified statement mentions them.
-/

deriving instance DecidableEq for Except

namespace PhotoApp

/-- Python str.lower(), modelled character-wise by structural recursion over
the character list of the string (the titles appearing in this development
are ASCII, where this agrees with Python). -/
def str_lower (s : String) : String := ⟨s.data.map Char.toLower⟩

/-- Modelled from the spec: role enumeration of src/database/models.py (absent
from the source tree); the three members are the ones used by the route
modules (Role.administrator, Role.moderator, Role.user). -/
inductive Role where
  | administrator : Role
  | moderator : Role
  | user : Role
deriving DecidableEq, Repr

/-- Modelled from the spec: the User row of src/database/models.py (absent from
the source tree); only the columns the verified code reads (id, role). -/
structure User where
  id : Nat
  role : Role
deriving DecidableEq, Repr

/-- Modelled from the spec: the Tag row of src/database/models.py (absent from
the source tree): {id, title (stored lowercase), creator id}. -/
structure Tag where
  id : Nat
  title : String
  user_id : Nat
deriving DecidableEq, Repr

/-- Modelled from the spec: the TagModel request schema of src/schemas/tags.py
(absent from the source tree); the only attribute the embedded code reads is
title. -/
structure TagModel where
  title : String
deriving DecidableEq, Repr

/-- Modelled from the spec: the Image row of src/database/models.py (absent
from the source tree): {id, url, owner id, description, attached tag list}. -/
structure Image where
  id : Nat
  url : String
  user_id : Nat
  description : String
  tags : List Tag
deriving DecidableEq, Repr

/-- Modelled from the spec: the Comment row of src/database/models.py (absent
from the source tree): {id, image id, author id, text, optional parent comment
id, created_at}. -/
structure Comment where
  id : Nat
  image_id : Nat
  user_id : Nat
  text : String
  parent_id : Option Nat
  created_at : Nat
deriving DecidableEq, Repr

/-- Request schema CommentModel of src/schemas/comments.py: the repository
functions read only the text field. -/
structure CommentModel where
  text : String
deriving DecidableEq, Repr

/-- Modelled from the spec: the Rate row of src/database/models.py (absent from
the source tree): {id, image id, user id, value}. -/
structure Rate where
  id : Nat
  image_id : Nat
  user_id : Nat
  rate : Nat
deriving DecidableEq, Repr

/-- RateModel of src/schemas/rates.py: a single integer field
(Field(ge=1, le=5)). -/
structure RateModel where
  rate : Nat
deriving DecidableEq, Repr

/-- RateImageResponse of src/schemas/rates.py: an optional average and an
image id.  Averages are modelled as exact rationals. -/
structure RateImageResponse where
  avg_rate : Option ℚ
  image_id : Nat
deriving DecidableEq, Repr

/-- The part of a FastAPI Request that src/services/roles.py could look at.
The gate never reads it; it is carried to state that fact. -/
structure Request where
  method : String
  url : String
deriving DecidableEq, Repr

/-- Exceptions raised by the embedded code: fastapi.HTTPException with a
status code and detail string, and the AttributeError raised when create_tag
receives a str where a TagModel is declared. -/
inductive PyErr where
  | httpException (statusCode : Nat) (detail : String) : PyErr
  | attributeError (detail : String) : PyErr
deriving DecidableEq, Repr

/-- An effect on the Redis cache: cache.set(key, pickle.dumps(image)) and
cache.expire(key, ttl), in the order performed. -/
inductive CacheOp where
  | set (key : String) (snapshot : Image) : CacheOp
  | expire (key : String) (ttl : Nat) : CacheOp
deriving DecidableEq, Repr

/-- The database state: the rows of each table, plus a counter supplying the
primary key of the next inserted row. -/
structure DB where
  images : List Image
  tags : List Tag
  rates : List Rate
  comments : List Comment
  nextId : Nat
deriving DecidableEq, Repr

/-! ### tags.py -/

/-- read_tag (src/repository/tags.py lines 42-55):
select(Tag).filter(Tag.title == title.lower()), then .scalar(), i.e. the first
row whose stored title equals the lowercased argument. -/
def read_tag (title : String) (db : DB) : Option Tag :=
  db.tags.find? (fun t => decide (t.title = str_lower title))

/-- create_tag (src/repository/tags.py lines 58-75), with its declared
contract: body is a TagModel and the new row stores body.title.lower(). -/
def create_tag (body : TagModel) (user : User) (db : DB) : Tag × DB :=
  let tag : Tag := { id := db.nextId, title := str_lower body.title, user_id := user.id }
  (tag, { db with tags := db.tags ++ [tag], nextId := db.nextId + 1 })

/-- The tag-resolution step inlined in add_tag_to_image (src/repository/
images.py lines 198-200) and delete_tag_from_image (lines 225-227):
tag = read_tag(tag_title); if not tag: tag = create_tag(tag_title, user, ...).
The fallback passes tag_title, a plain str, where create_tag declares body:
TagModel; create_tag then evaluates body.title.lower(), but the title
attribute of a Python str is the built-in method str.title, which has no
attribute lower, so the call raises AttributeError before any row is added.
Hence resolution succeeds exactly when a Tag row with the lowercased title
already exists, and otherwise raises without touching the state. -/
def resolve_or_create_tag (tag_title : String) (db : DB) : Except PyErr Tag :=
  match read_tag tag_title db with
  | some tag => Except.ok tag
  | none => Except.error (PyErr.attributeError
      "builtin_function_or_method object has no attribute lower")

/-! ### images.py -/

/-- Modelled from the spec: MAX_NUMBER_OF_TAGS_PER_IMAGE is imported by
src/repository/images.py from src.schemas.images, whose copy in the source
tree does not contain the definition; the spec fixes MAX_TAGS = 5. -/
def MAX_NUMBER_OF_TAGS_PER_IMAGE : Nat := 5

/-- set_image_in_cache (src/repository/images.py lines 28-40): the two cache
calls, in order, under the derived key.  redisExpire is the configured TTL
(settings.redis_expire; src/conf/config.py is not in the source tree, so the
TTL is carried as a parameter). -/
def set_image_in_cache (image : Image) (redisExpire : Nat) : List CacheOp :=
  [CacheOp.set ("image: " ++ toString image.id) image,
   CacheOp.expire ("image: " ++ toString image.id) redisExpire]

/-- The image lookup shared by add_tag_to_image and delete_tag_from_image:
select(Image).filter(and_(Image.id == image_id, Image.user_id == user_id)),
then .scalar(). -/
def find_user_image (image_id user_id : Nat) (db : DB) : Option Image :=
  db.images.find? (fun i => decide (i.id = image_id ∧ i.user_id = user_id))

/-- Committing a mutated image row: the row with the same primary key is
replaced by the mutated object. -/
def commit_image (db : DB) (image : Image) : DB :=
  { db with images := db.images.map (fun i => if i.id = image.id then image else i) }

/-- The detail string of the capacity HTTPException raised by
add_tag_to_image. -/
def tag_cap_detail : String :=
  "Can\x27t exceeded the maximum number (" ++ toString MAX_NUMBER_OF_TAGS_PER_IMAGE
    ++ ") of tags per image"

/-- add_tag_to_image (src/repository/images.py lines 190-214).  Resolve the
tag (raising AttributeError when the title is unknown, see
resolve_or_create_tag); load the image scoped to the expected owner; if absent
return None; if the image already holds MAX_NUMBER_OF_TAGS_PER_IMAGE tags
raise HTTPException 400 before looking at membership; otherwise append the tag
only when it is not yet attached, committing and refreshing the cache in that
case only; finally return the image.  The result is (outcome, successor
state, cache operations performed). -/
def add_tag_to_image (image_id : Nat) (tag_title : String) (user_id : Nat)
    (user : User) (db : DB) (redisExpire : Nat) :
    Except PyErr (Option Image) × DB × List CacheOp :=
  match resolve_or_create_tag tag_title db with
  | Except.error e => (Except.error e, db, [])
  | Except.ok tag =>
    match find_user_image image_id user_id db with
    | none => (Except.ok none, db, [])
    | some image =>
      if image.tags.length = MAX_NUMBER_OF_TAGS_PER_IMAGE then
        (Except.error (PyErr.httpException 400 tag_cap_detail), db, [])
      else if tag ∈ image.tags then
        (Except.ok (some image), db, [])
      else
        let image2 := { image with tags := image.tags ++ [tag] }
        (Except.ok (some image2), commit_image db image2,
         set_image_in_cache image2 redisExpire)

/-- delete_tag_from_image (src/repository/images.py lines 217-236).  Resolve
the tag exactly as add_tag_to_image does; load the image scoped to the owner;
if the tag list is nonempty and contains the tag, remove its first occurrence,
commit and refresh the cache; otherwise leave everything unchanged; return the
image (or None when the lookup failed). -/
def delete_tag_from_image (image_id : Nat) (tag_title : String) (user_id : Nat)
    (user : User) (db : DB) (redisExpire : Nat) :
    Except PyErr (Option Image) × DB × List CacheOp :=
  match resolve_or_create_tag tag_title db with
  | Except.error e => (Except.error e, db, [])
  | Except.ok tag =>
    match find_user_image image_id user_id db with
    | none => (Except.ok none, db, [])
    | some image =>
      if image.tags ≠ [] ∧ tag ∈ image.tags then
        let image2 := { image with tags := image.tags.erase tag }
        (Except.ok (some image2), commit_image db image2,
         set_image_in_cache image2 redisExpire)
      else
        (Except.ok (some image), db, [])

/-- read_images (src/repository/images.py lines 80-93):
select(Image).filter(user_id == user_id).  The filter compares the user_id
argument with itself (a Python boolean, not a column expression), so the
predicate does not look at the row at all. -/
def read_images (user_id : Nat) (db : DB) : List Image :=
  db.images.filter (fun _ => decide (user_id = user_id))

/-! ### rates.py and the response validator of schemas/rates.py -/

/-- The SQL aggregate avg(Rate.rate) over the rates of one image: NULL (none)
when no row matches, otherwise the exact arithmetic mean. -/
def avg_rate_sql (image_id : Nat) (db : DB) : Option ℚ :=
  let rs := db.rates.filter (fun r => decide (r.image_id = image_id))
  if rs.isEmpty then none
  else some (((rs.map (fun r => (r.rate : ℚ))).sum) / (rs.length : ℚ))

/-- Rounding half to even, the tie-breaking rule of the Python built-in
round(). -/
def round_half_even (q : ℚ) : ℤ :=
  let f : ℤ := ⌊q⌋
  if q - f < 1 / 2 then f
  else if 1 / 2 < q - f then f + 1
  else if f % 2 = 0 then f else f + 1

/-- round(v, 2) on an exact rational: round half to even at two decimal
places.  Python rounds a binary float, whose representation error this exact
model idealizes away; no verified statement depends on a rounded value. -/
def round2 (x : ℚ) : ℚ :=
  (round_half_even (x * 100) : ℚ) / 100

/-- round_avg_rate (src/schemas/rates.py lines 29-33), the
validator(pre=True, always=True) applied to avg_rate on construction of a
RateImageResponse: if v: return round(v, 2); return None.  Both None and the
number 0 are falsy in Python, so a coalesced zero average collapses to None
here. -/
def round_avg_rate (v : Option ℚ) : Option ℚ :=
  match v with
  | some x => if x ≠ 0 then some (round2 x) else none
  | none => none

/-- Construction of a RateImageResponse: the validator round_avg_rate runs on
the avg_rate argument. -/
def mkRateImageResponse (avg : Option ℚ) (image_id : Nat) : RateImageResponse :=
  { avg_rate := round_avg_rate avg, image_id := image_id }

/-- read_avg_rate_to_photo (src/repository/rates.py lines 28-35):
select(avg(Rate.rate)).where(Rate.image_id == image_id), wrapped in a
RateImageResponse. -/
def read_avg_rate_to_photo (image_id : Nat) (db : DB) : RateImageResponse :=
  mkRateImageResponse (avg_rate_sql image_id db) image_id

/-- The ORDER BY key relation of read_all_avg_rate:
avg(Rate.rate) descending with NULL averages placed last
(.desc().nulls_last()).  nulls_last_desc a b states that a key a may appear
before a key b. -/
def nulls_last_desc : Option ℚ → Option ℚ → Prop
  | some x, some y => y ≤ x
  | none, some _ => False
  | _, _ => True

instance : DecidableRel nulls_last_desc := fun a b =>
  match a, b with
  | some x, some y => inferInstanceAs (Decidable (y ≤ x))
  | none, some _ => inferInstanceAs (Decidable False)
  | some _, none => inferInstanceAs (Decidable True)
  | none, none => inferInstanceAs (Decidable True)

instance : IsTotal (Option ℚ) nulls_last_desc :=
  ⟨fun a b => by
    cases a <;> cases b <;> simp [nulls_last_desc]
    exact le_total _ _⟩

instance : IsTrans (Option ℚ) nulls_last_desc :=
  ⟨fun a b c hab hbc => by
    cases a <;> cases b <;> cases c <;> simp_all [nulls_last_desc]
    exact le_trans hbc hab⟩

/-- The ordering of the images induced by the ORDER BY of read_all_avg_rate. -/
def image_rate_order (db : DB) (a b : Image) : Prop :=
  nulls_last_desc (avg_rate_sql a.id db) (avg_rate_sql b.id db)

instance (db : DB) : DecidableRel (image_rate_order db) := fun a b =>
  inferInstanceAs (Decidable (nulls_last_desc _ _))

instance (db : DB) : IsTotal Image (image_rate_order db) :=
  ⟨fun a b => IsTotal.total (r := nulls_last_desc) _ _⟩

instance (db : DB) : IsTrans Image (image_rate_order db) :=
  ⟨fun _ _ _ hab hbc => Trans.trans (r := nulls_last_desc) hab hbc⟩

/-- read_all_avg_rate (src/repository/rates.py lines 37-45): one row per image
(LEFT OUTER JOIN to rates, GROUP BY Image.id) carrying
coalesce(avg(Rate.rate), 0), ordered by the raw average descending with NULLs
last, then wrapped row-by-row in RateImageResponse (whose validator runs on
the coalesced value). -/
def read_all_avg_rate (db : DB) : List RateImageResponse :=
  (List.insertionSort (image_rate_order db) db.images).map
    (fun img => mkRateImageResponse (some ((avg_rate_sql img.id db).getD 0)) img.id)

/-- create_rate_to_photo (src/repository/rates.py lines 47-67): point lookup
of the image by primary key; if it exists and the acting user is not its
owner, look for an existing Rate of this user on this image; when none exists
insert exactly one Rate row with the requested value and return it; in every
other case return None and leave the state unchanged. -/
def create_rate_to_photo (image_id : Nat) (body : RateModel) (user : User)
    (db : DB) : Option Rate × DB :=
  match db.images.find? (fun i => decide (i.id = image_id)) with
  | none => (none, db)
  | some photo =>
    if photo.user_id ≠ user.id then
      match db.rates.find? (fun r => decide (r.image_id = image_id ∧ r.user_id = user.id)) with
      | some _ => (none, db)
      | none =>
        let rate : Rate := { id := db.nextId, image_id := image_id,
                             user_id := user.id, rate := body.rate }
        (some rate, { db with rates := db.rates ++ [rate], nextId := db.nextId + 1 })
    else (none, db)

/-- The spec invariant on ratings: at most one Rate per (user, image) pair and
never a Rate by the owner of the image. -/
def RateInvariant (db : DB) : Prop :=
  (db.rates.Pairwise fun a b => ¬(a.image_id = b.image_id ∧ a.user_id = b.user_id))
  ∧ ∀ r ∈ db.rates, ∀ img ∈ db.images, img.id = r.image_id → r.user_id ≠ img.user_id

/-! ### comments.py -/

/-- The inner loop of read_all_comments_to_photo (src/repository/comments.py
lines 33-37): scan the current list for the first element whose id equals the
parent_id of the child and insert the child at that index (immediately before
the matched element); leave the list unchanged when no element matches. -/
def insert_child (k : Comment) : List Comment → List Comment
  | [] => []
  | c :: cs => if k.parent_id = some c.id then k :: c :: cs else c :: insert_child k cs

/-- read_all_comments_to_photo (src/repository/comments.py lines 15-39),
expressed over the two query results it combines: roots is the list of
parentless comments of the image ordered by created_at descending, kids the
list of parented comments of the image ordered by created_at ascending.  The
children are processed in list (ascending time) order, each one inserted by
insert_child into the mutating list that starts as roots. -/
def read_all_comments_to_photo (roots kids : List Comment) : List Comment :=
  kids.foldl (fun acc k => insert_child k acc) roots

/-- The children of root r among the processed children P, in order: the
sublist of P whose parent_id equals the id of r. -/
def children_of (P : List Comment) (r : Comment) : List Comment :=
  P.filter (fun c => decide (c.parent_id = some r.id))

/-- The assembled two-level view on which read_all_comments_to_photo is
proved to agree: for each root r in root order, the children of r in child
order immediately before r. -/
def thread_blocks (R P : List Comment) : List Comment :=
  R.flatMap (fun r => children_of P r ++ [r])

/-- update_comment (src/repository/comments.py lines 62-71): the lookup
filters by comment id AND author id; on a hit the text is replaced and
committed, otherwise None is returned and nothing changes. -/
def update_comment (comment_id : Nat) (body : CommentModel) (user : User)
    (db : DB) : Option Comment × DB :=
  match db.comments.find? (fun c => decide (c.id = comment_id ∧ c.user_id = user.id)) with
  | none => (none, db)
  | some c =>
    let c2 := { c with text := body.text }
    (some c2,
     { db with comments := db.comments.map (fun x => if x.id = c2.id then c2 else x) })

/-- delete_comment (src/repository/comments.py lines 73-80): the lookup
filters by comment id only; on a hit the row is deleted and returned, with no
condition on the acting user. -/
def delete_comment (comment_id : Nat) (user : User) (db : DB) :
    Option Comment × DB :=
  match db.comments.find? (fun c => decide (c.id = comment_id)) with
  | none => (none, db)
  | some c => (some c, { db with comments := db.comments.erase c })

/-! ### services/roles.py -/

/-- RoleAccess (src/services/roles.py): constructed from the allowed-role list
of an operation. -/
structure RoleAccess where
  allowed_roles : List Role
deriving DecidableEq, Repr

/-- The call method of RoleAccess: raise HTTPException 403 when the role of
the current user is not in the allowed list, otherwise return unit.  The
request argument is received and never read; the function touches no store
and performs no other effect. -/
def RoleAccess.call (self : RoleAccess) (request : Request) (user : User) :
    Except PyErr Unit :=
  if user.role ∈ self.allowed_roles then Except.ok ()
  else Except.error (PyErr.httpException 403 "Operation forbidden")

/-! ### Concrete sample data for witnesses and counterexamples -/

/-- Sample tag a. -/
def tagA : Tag := { id := 101, title := "a", user_id := 1 }

/-- Sample tag b. -/
def tagB : Tag := { id := 102, title := "b", user_id := 1 }

/-- Sample tag c. -/
def tagC : Tag := { id := 103, title := "c", user_id := 1 }

/-- Sample tag d. -/
def tagD : Tag := { id := 104, title := "d", user_id := 1 }

/-- Sample tag e. -/
def tagE : Tag := { id := 105, title := "e", user_id := 1 }

/-- Sample tag f. -/
def tagF : Tag := { id := 106, title := "f", user_id := 1 }

/-- Sample owner of the images below. -/
def uOwner : User := { id := 1, role := Role.user }

/-- A second sample user. -/
def uOther : User := { id := 2, role := Role.user }

/-- An image holding exactly MAX_NUMBER_OF_TAGS_PER_IMAGE tags. -/
def imgFull : Image :=
  { id := 1, url := "http://e/1", user_id := 1, description := "d",
    tags := [tagA, tagB, tagC, tagD, tagE] }

/-- State for the tag-cap scenarios: imgFull owned by user 1, tag f existing
but unattached. -/
def dbFull : DB :=
  { images := [imgFull], tags := [tagA, tagB, tagC, tagD, tagE, tagF],
    rates := [], comments := [], nextId := 500 }

/-- An image holding a single tag. -/
def imgOne : Image :=
  { id := 1, url := "http://e/1", user_id := 1, description := "d",
    tags := [tagA] }

/-- State for the no-op attach and missing-title scenarios: imgOne plus tags a
and b in the tag table. -/
def dbOne : DB :=
  { images := [imgOne], tags := [tagA, tagB],
    rates := [], comments := [], nextId := 500 }

/-- State for the zero-ratings scenarios: one image, no rates. -/
def dbNoRates : DB :=
  { images := [imgOne], tags := [], rates := [], comments := [], nextId := 500 }

/-- State for the rating-creation witness: one image owned by user 1, no
rates yet. -/
def dbRate : DB := dbNoRates

/-- Sample root comment (created_at 10). -/
def cRootA : Comment :=
  { id := 1, image_id := 7, user_id := 1, text := "A", parent_id := none,
    created_at := 10 }

/-- Sample root comment (created_at 5). -/
def cRootB : Comment :=
  { id := 2, image_id := 7, user_id := 2, text := "B", parent_id := none,
    created_at := 5 }

/-- Sample child of cRootB (created_at 7). -/
def cChildC : Comment :=
  { id := 3, image_id := 7, user_id := 1, text := "C", parent_id := some 2,
    created_at := 7 }

/-- Sample child whose parent id matches no root (for instance a reply whose
root was deleted): it must be dropped by the assembly. -/
def cOrphanD : Comment :=
  { id := 4, image_id := 7, user_id := 2, text := "D", parent_id := some 99,
    created_at := 8 }

/-- State for the comment-ownership scenarios: one comment authored by
user 1. -/
def dbComments : DB :=
  { images := [], tags := [], rates := [], comments := [cRootA],
    nextId := 500 }

/-- A sample request, carried only to state that the gate ignores it. -/
def reqGet : Request := { method := "GET", url := "/api/images" }

/-- A second sample request with a different operation kind. -/
def reqPost : Request := { method := "POST", url := "/api/images" }

/-! ## Theorems -/

/-! ### Thread assembly (read_all_comments_to_photo) -/

theorem insert_child_eq_of_no_match (k : Comment) :
    ∀ l : List Comment, (∀ c ∈ l, k.parent_id ≠ some c.id) → insert_child k l = l
  | [], _ => rfl
  | c :: cs, h => by
    have hc : k.parent_id ≠ some c.id := h c (List.mem_cons_self c cs)
    simp only [insert_child, if_neg hc]
    exact congrArg (c :: ·) (insert_child_eq_of_no_match k cs
      (fun x hx => h x (List.mem_cons_of_mem c hx)))

theorem insert_child_append_of_no_match (k : Comment) :
    ∀ xs ys : List Comment, (∀ c ∈ xs, k.parent_id ≠ some c.id) →
      insert_child k (xs ++ ys) = xs ++ insert_child k ys
  | [], ys, _ => rfl
  | c :: cs, ys, h => by
    have hc : k.parent_id ≠ some c.id := h c (List.mem_cons_self c cs)
    simp only [List.cons_append, insert_child, if_neg hc]
    exact congrArg (c :: ·) (insert_child_append_of_no_match k cs ys
      (fun x hx => h x (List.mem_cons_of_mem c hx)))

theorem children_of_append_match {k : Comment} {r : Comment}
    (P : List Comment) (h : k.parent_id = some r.id) :
    children_of (P ++ [k]) r = children_of P r ++ [k] := by
  simp [children_of, List.filter_append, h]

theorem children_of_append_no_match {k : Comment} {r : Comment}
    (P : List Comment) (h : k.parent_id ≠ some r.id) :
    children_of (P ++ [k]) r = children_of P r := by
  simp [children_of, List.filter_append, h]

theorem insert_child_thread_blocks (k : Comment) (P : List Comment) :
    ∀ R : List Comment, R.Pairwise (fun a b => a.id ≠ b.id) →
      (∀ c ∈ P, k.parent_id ≠ some c.id) →
      insert_child k (thread_blocks R P) = thread_blocks R (P ++ [k])
  | [], _, _ => rfl
  | r :: R, hR, hP => by
    rw [List.pairwise_cons] at hR
    have hblock : ∀ c ∈ children_of P r, k.parent_id ≠ some c.id :=
      fun c hc => hP c (List.mem_of_mem_filter hc)
    by_cases hpar : k.parent_id = some r.id
    · have h1 : insert_child k (thread_blocks (r :: R) P)
          = children_of P r ++ (k :: r :: thread_blocks R P) := by
        simp only [thread_blocks, List.flatMap_cons, List.append_assoc, List.singleton_append]
        rw [insert_child_append_of_no_match k _ _ hblock]
        simp only [insert_child, if_pos hpar]
      rw [h1]
      have h2 : ∀ r2 ∈ R, children_of (P ++ [k]) r2 = children_of P r2 := by
        intro r2 hr2
        refine children_of_append_no_match P ?_
        rw [hpar]
        intro hcontra
        exact hR.1 r2 hr2 (Option.some.inj hcontra)
      have h3 : R.flatMap (fun r2 => children_of (P ++ [k]) r2 ++ [r2])
          = R.flatMap (fun r2 => children_of P r2 ++ [r2]) :=
        List.flatMap_congr (fun r2 hr2 => by rw [h2 r2 hr2])
      simp only [thread_blocks, List.flatMap_cons, children_of_append_match P hpar, h3]
      simp [List.append_assoc]
    · have hfront : ∀ c ∈ children_of P r ++ [r], k.parent_id ≠ some c.id := by
        intro c hc
        rcases List.mem_append.1 hc with hc | hc
        · exact hblock c hc
        · rw [List.mem_singleton.1 hc]; exact hpar
      have h1 : insert_child k (thread_blocks (r :: R) P)
          = (children_of P r ++ [r]) ++ insert_child k (thread_blocks R P) := by
        simp only [thread_blocks, List.flatMap_cons]
        exact insert_child_append_of_no_match k _ _ hfront
      rw [h1, insert_child_thread_blocks k P R hR.2 hP]
      simp only [thread_blocks, List.flatMap_cons, children_of_append_no_match P hpar]

theorem foldl_insert_child_thread_blocks :
    ∀ K R P : List Comment, R.Pairwise (fun a b => a.id ≠ b.id) →
      (∀ k ∈ K, ∀ c ∈ P, k.parent_id ≠ some c.id) →
      (∀ k ∈ K, ∀ k2 ∈ K, k.parent_id ≠ some k2.id) →
      K.foldl (fun acc k => insert_child k acc) (thread_blocks R P)
        = thread_blocks R (P ++ K)
  | [], R, P, _, _, _ => by simp [List.foldl]
  | k :: K, R, P, hR, hP, hKK => by
    have hstep : insert_child k (thread_blocks R P) = thread_blocks R (P ++ [k]) :=
      insert_child_thread_blocks k P R hR
        (fun c hc => hP k (List.mem_cons_self k K) c hc)
    have hrec := foldl_insert_child_thread_blocks K R (P ++ [k]) hR
      (by
        intro k2 hk2 c hc
        rcases List.mem_append.1 hc with hc | hc
        · exact hP k2 (List.mem_cons_of_mem k hk2) c hc
        · rw [List.mem_singleton.1 hc]
          exact hKK k2 (List.mem_cons_of_mem k hk2) k (List.mem_cons_self k K))
      (fun k2 hk2 k3 hk3 =>
        hKK k2 (List.mem_cons_of_mem k hk2) k3 (List.mem_cons_of_mem k hk3))
    simp only [List.foldl_cons, hstep, hrec, List.append_assoc, List.singleton_append]

theorem insert_child_length_le (k : Comment) :
    ∀ l : List Comment, (insert_child k l).length ≤ l.length + 1
  | [] => by simp [insert_child]
  | c :: cs => by
    by_cases h : k.parent_id = some c.id
    · simp [insert_child, if_pos h]
    · simp only [insert_child, if_neg h, List.length_cons]
      exact Nat.succ_le_succ (insert_child_length_le k cs)

theorem foldl_insert_child_length_le :
    ∀ (K acc : List Comment),
      (K.foldl (fun acc k => insert_child k acc) acc).length ≤ acc.length + K.length
  | [], acc => by simp
  | k :: K, acc => by
    calc (List.foldl (fun acc k => insert_child k acc) (insert_child k acc) K).length
        ≤ (insert_child k acc).length + K.length := foldl_insert_child_length_le K _
      _ ≤ (acc.length + 1) + K.length :=
          Nat.add_le_add_right (insert_child_length_le k acc) _
      _ = acc.length + (k :: K).length := by simp [Nat.add_assoc, Nat.add_comm 1]

/-- C1. Thread assembly: over the root list R (the parentless comments of the
image, time-descending) and the child list K (its parented comments,
time-ascending), processing K in order inserts each child whose parent_id
matches a root immediately before that root in the mutating list, so the
result equals thread_blocks R K (each root preceded by its children in K
order); every child matching no root is absent from the output; and the
output length is at most the sum of the input lengths.  The hypotheses state
database invariants of the source system: primary keys of roots are pairwise
distinct, roots have no parent, children have one, and a child never points
at another child (create_comment_to_comment refuses a parented parent). -/
theorem thread_assembly_spec (R K : List Comment)
    (hRids : R.Pairwise fun a b => a.id ≠ b.id)
    (hRroot : ∀ r ∈ R, r.parent_id = none)
    (hKchild : ∀ k ∈ K, k.parent_id ≠ none)
    (hKK : ∀ k ∈ K, ∀ k2 ∈ K, k.parent_id ≠ some k2.id) :
    read_all_comments_to_photo R K = thread_blocks R K
    ∧ (∀ k ∈ K, (∀ r ∈ R, k.parent_id ≠ some r.id) →
        k ∉ read_all_comments_to_photo R K)
    ∧ (read_all_comments_to_photo R K).length ≤ R.length + K.length := by
  have hchar : read_all_comments_to_photo R K = thread_blocks R K := by
    have hbase : thread_blocks R [] = R := by
      simp [thread_blocks, children_of]
    have h := foldl_insert_child_thread_blocks K R []
      hRids (by intro k _ c hc; exact absurd hc (List.not_mem_nil c)) hKK
    rw [hbase] at h
    simpa [read_all_comments_to_photo] using h
  refine ⟨hchar, ?_, ?_⟩
  · intro k hk hnomatch hmem
    rw [hchar] at hmem
    rcases List.mem_flatMap.1 hmem with ⟨r, hr, hkr⟩
    rcases List.mem_append.1 hkr with hkc | hkr
    · have := List.of_mem_filter hkc
      exact hnomatch r hr (of_decide_eq_true this)
    · have hkeq : k = r := List.mem_singleton.1 hkr
      have h1 : k.parent_id = none := hkeq ▸ hRroot r hr
      exact hKchild k hk h1
  · exact foldl_insert_child_length_le K R

/-- Witness for C1 at scenario S1 plus a dangling child: roots A (t=10) and
B (t=5), child C of B (t=7) and child D whose parent id 99 matches no root.
The assembled list is [A, C, B], D is dropped, and the length bound holds. -/
theorem thread_assembly_spec_witness :
    read_all_comments_to_photo [cRootA, cRootB] [cChildC, cOrphanD]
      = [cRootA, cChildC, cRootB]
    ∧ (read_all_comments_to_photo [cRootA, cRootB] [cChildC, cOrphanD]
        = thread_blocks [cRootA, cRootB] [cChildC, cOrphanD]
      ∧ (∀ k ∈ [cChildC, cOrphanD],
          (∀ r ∈ [cRootA, cRootB], k.parent_id ≠ some r.id) →
          k ∉ read_all_comments_to_photo [cRootA, cRootB] [cChildC, cOrphanD])
      ∧ (read_all_comments_to_photo [cRootA, cRootB] [cChildC, cOrphanD]).length
          ≤ ([cRootA, cRootB] : List Comment).length
            + ([cChildC, cOrphanD] : List Comment).length) :=
  ⟨by decide,
   thread_assembly_spec [cRootA, cRootB] [cChildC, cOrphanD]
     (by decide) (by decide) (by decide) (by decide)⟩

/-! ### Tag attachment (add_tag_to_image / delete_tag_from_image) -/

/-- C2. Tag cap: when the image of the expected owner is found, already holds
MAX_NUMBER_OF_TAGS_PER_IMAGE tags, and the title resolves to an existing tag
that is not attached to it, add_tag_to_image raises HTTPException 400 with
the capacity detail (a distinct raised signal, not the None used for
absence), and both the database state and the cache are left untouched. -/
theorem add_tag_cap_exceeded (image_id : Nat) (title : String) (uid : Nat)
    (u : User) (db : DB) (ttl : Nat) (tag : Tag) (img : Image)
    (htag : read_tag title db = some tag)
    (himg : find_user_image image_id uid db = some img)
    (hcap : img.tags.length = MAX_NUMBER_OF_TAGS_PER_IMAGE)
    (hnot : tag ∉ img.tags) :
    add_tag_to_image image_id title uid u db ttl
      = (Except.error (PyErr.httpException 400 tag_cap_detail), db, []) := by
  simp [add_tag_to_image, resolve_or_create_tag, htag, himg, hcap]

/-- Witness for C2 at scenario S4: the image holds {a,b,c,d,e} and tag f
exists but is unattached; attaching f raises the capacity error and changes
nothing. -/
theorem add_tag_cap_exceeded_witness :
    add_tag_to_image 1 "f" 1 uOwner dbFull 60
      = (Except.error (PyErr.httpException 400 tag_cap_detail), dbFull, []) :=
  add_tag_cap_exceeded 1 "f" 1 uOwner dbFull 60 tagF imgFull
    (by decide) (by decide) (by decide) (by decide)

/-- Counterexample to C3 as stated: in scenario S4 the attach of the already
attached tag a to the image at the cap does NOT succeed; the capacity check
runs before the membership check and raises HTTPException 400. -/
theorem add_tag_already_present_at_cap_raises :
    read_tag "a" dbFull = some tagA
    ∧ tagA ∈ imgFull.tags
    ∧ imgFull.tags.length = MAX_NUMBER_OF_TAGS_PER_IMAGE
    ∧ (add_tag_to_image 1 "a" 1 uOwner dbFull 60).1
        = Except.error (PyErr.httpException 400 tag_cap_detail) := by
  decide

/-- C3 amended. Tag idempotence holds below the cap: attaching an already
attached tag to an image holding fewer than MAX_NUMBER_OF_TAGS_PER_IMAGE tags
succeeds as a no-op without error (at exactly the cap it instead raises the
capacity error, see the counterexample), and detaching an existing tag that
is not attached succeeds as a no-op without error. -/
theorem tag_idempotence_amended :
    (∀ (image_id : Nat) (title : String) (uid : Nat) (u : User) (db : DB)
       (ttl : Nat) (tag : Tag) (img : Image),
       read_tag title db = some tag →
       find_user_image image_id uid db = some img →
       tag ∈ img.tags →
       img.tags.length ≠ MAX_NUMBER_OF_TAGS_PER_IMAGE →
       add_tag_to_image image_id title uid u db ttl
         = (Except.ok (some img), db, []))
    ∧ (∀ (image_id : Nat) (title : String) (uid : Nat) (u : User) (db : DB)
       (ttl : Nat) (tag : Tag) (img : Image),
       read_tag title db = some tag →
       find_user_image image_id uid db = some img →
       tag ∉ img.tags →
       delete_tag_from_image image_id title uid u db ttl
         = (Except.ok (some img), db, [])) := by
  constructor
  · intro image_id title uid u db ttl tag img htag himg hmem hlen
    simp [add_tag_to_image, resolve_or_create_tag, htag, himg, hlen, hmem]
  · intro image_id title uid u db ttl tag img htag himg hnot
    have hcond : ¬(img.tags ≠ [] ∧ tag ∈ img.tags) := fun h => hnot h.2
    simp [delete_tag_from_image, resolve_or_create_tag, htag, himg, hcond]

/-- Witness for C3 amended: on dbOne (image holding only tag a), attaching a
again is a successful no-op, and detaching the existing but unattached tag b
is a successful no-op. -/
theorem tag_idempotence_amended_witness :
    add_tag_to_image 1 "a" 1 uOwner dbOne 60 = (Except.ok (some imgOne), dbOne, [])
    ∧ delete_tag_from_image 1 "b" 1 uOwner dbOne 60
        = (Except.ok (some imgOne), dbOne, []) :=
  ⟨tag_idempotence_amended.1 1 "a" 1 uOwner dbOne 60 tagA imgOne
     (by decide) (by decide) (by decide) (by decide),
   tag_idempotence_amended.2 1 "b" 1 uOwner dbOne 60 tagB imgOne
     (by decide) (by decide) (by decide)⟩

/-- Counterexample to C7 as stated: the no-op attach of the already attached
tag a (image below the cap) succeeds but performs NO cache operation at all —
in particular not the refresh sequence of set_image_in_cache — because the
cache call sits inside the branch taken only when the tag is newly
appended. -/
theorem add_tag_noop_does_not_refresh_cache :
    (add_tag_to_image 1 "a" 1 uOwner dbOne 60).1 = Except.ok (some imgOne)
    ∧ (add_tag_to_image 1 "a" 1 uOwner dbOne 60).2.2 = []
    ∧ (add_tag_to_image 1 "a" 1 uOwner dbOne 60).2.2 ≠ set_image_in_cache imgOne 60 := by
  decide

/-- C7 amended. Cache behaviour of attach: a no-op attach (tag already
attached, image below the cap) succeeds and triggers no cache operation; the
Cache Synchronizer sequence (set of the snapshot under the derived key, then
expire with the configured TTL) runs exactly when the tag is newly
appended. -/
theorem add_tag_cache_spec :
    (∀ (image_id : Nat) (title : String) (uid : Nat) (u : User) (db : DB)
       (ttl : Nat) (tag : Tag) (img : Image),
       read_tag title db = some tag →
       find_user_image image_id uid db = some img →
       tag ∈ img.tags →
       img.tags.length ≠ MAX_NUMBER_OF_TAGS_PER_IMAGE →
       (add_tag_to_image image_id title uid u db ttl).1 = Except.ok (some img)
       ∧ (add_tag_to_image image_id title uid u db ttl).2.2 = [])
    ∧ (∀ (image_id : Nat) (title : String) (uid : Nat) (u : User) (db : DB)
       (ttl : Nat) (tag : Tag) (img : Image),
       read_tag title db = some tag →
       find_user_image image_id uid db = some img →
       tag ∉ img.tags →
       img.tags.length ≠ MAX_NUMBER_OF_TAGS_PER_IMAGE →
       (add_tag_to_image image_id title uid u db ttl).2.2
         = set_image_in_cache { img with tags := img.tags ++ [tag] } ttl) := by
  constructor
  · intro image_id title uid u db ttl tag img htag himg hmem hlen
    simp [add_tag_to_image, resolve_or_create_tag, htag, himg, hlen, hmem]
  · intro image_id title uid u db ttl tag img htag himg hnot hlen
    simp [add_tag_to_image, resolve_or_create_tag, htag, himg, hlen, hnot]

/-- Witness for C7 amended: on dbOne, re-attaching a performs no cache
operation, while attaching the new tag b performs the refresh sequence for
the updated snapshot. -/
theorem add_tag_cache_spec_witness :
    ((add_tag_to_image 1 "a" 1 uOwner dbOne 60).1 = Except.ok (some imgOne)
      ∧ (add_tag_to_image 1 "a" 1 uOwner dbOne 60).2.2 = [])
    ∧ (add_tag_to_image 1 "b" 1 uOwner dbOne 60).2.2
        = set_image_in_cache { imgOne with tags := imgOne.tags ++ [tagB] } 60 :=
  ⟨add_tag_cache_spec.1 1 "a" 1 uOwner dbOne 60 tagA imgOne
     (by decide) (by decide) (by decide) (by decide),
   add_tag_cache_spec.2 1 "b" 1 uOwner dbOne 60 tagB imgOne
     (by decide) (by decide) (by decide) (by decide)⟩

/-- C8. Evaluation at the failing input: detaching the unknown title newtag
from the image of dbOne does not create a Tag row and does not no-op; the
creation fallback passes a str where create_tag declares a TagModel, and the
call raises AttributeError with the state untouched (the tag table still
holds exactly a and b). -/
theorem delete_tag_missing_title_raises :
    read_tag "newtag" dbOne = none
    ∧ delete_tag_from_image 1 "newtag" 1 uOwner dbOne 60
        = (Except.error (PyErr.attributeError
            "builtin_function_or_method object has no attribute lower"), dbOne, [])
    ∧ dbOne.tags.map Tag.title = ["a", "b"] := by
  decide

/-! ### Rating aggregation (read_avg_rate_to_photo / read_all_avg_rate) -/

/-- Counterexample to C4 as stated: for the zero-rated image of dbNoRates,
read_all_avg_rate does NOT return the pair (1, 0): the SQL coalesce does
produce 0, but the validator round_avg_rate treats 0 as falsy and collapses
it to None, so the returned pair carries none, exactly like
read_avg_rate_to_photo. -/
theorem all_avg_reports_none_for_zero_rated :
    read_all_avg_rate dbNoRates = [{ avg_rate := none, image_id := 1 }]
    ∧ { avg_rate := some 0, image_id := 1 } ∉ read_all_avg_rate dbNoRates
    ∧ read_avg_rate_to_photo 1 dbNoRates = { avg_rate := none, image_id := 1 } := by
  decide

/-- C4 amended. Average semantics: for an image with zero ratings,
read_avg_rate_to_photo reports explicit absence (avg_rate = none), and
read_all_avg_rate also reports none for it (the coalesced 0 is collapsed by
the falsy check of the validator), rather than the pair (imageId, 0);
read_all_avg_rate still returns exactly one pair per image, ordered by the
underlying SQL average descending with zero-rated images last. -/
theorem rates_average_spec (db : DB) (image_id : Nat) :
    (db.rates.filter (fun r => decide (r.image_id = image_id)) = [] →
       read_avg_rate_to_photo image_id db = { avg_rate := none, image_id := image_id })
    ∧ (∀ resp ∈ read_all_avg_rate db,
        db.rates.filter (fun r => decide (r.image_id = resp.image_id)) = [] →
        resp.avg_rate = none)
    ∧ List.Perm ((read_all_avg_rate db).map RateImageResponse.image_id)
        (db.images.map Image.id)
    ∧ List.Pairwise
        (fun a b => nulls_last_desc (avg_rate_sql a.image_id db)
          (avg_rate_sql b.image_id db))
        (read_all_avg_rate db) := by
  refine ⟨?_, ?_, ?_, ?_⟩
  · intro h
    simp [read_avg_rate_to_photo, avg_rate_sql, h, mkRateImageResponse, round_avg_rate]
  · intro resp hresp hempty
    rcases List.mem_map.1 hresp with ⟨img, _, himg⟩
    have hid : resp.image_id = img.id := by
      rw [← himg]
      rfl
    have hnone : avg_rate_sql img.id db = none := by
      rw [hid] at hempty
      simp [avg_rate_sql, hempty]
    rw [← himg]
    simp [mkRateImageResponse, hnone, round_avg_rate, round2]
  · have h1 : (read_all_avg_rate db).map RateImageResponse.image_id
        = (List.insertionSort (image_rate_order db) db.images).map Image.id := by
      simp only [read_all_avg_rate, List.map_map]
      rfl
    rw [h1]
    exact List.Perm.map Image.id (List.perm_insertionSort (image_rate_order db) db.images)
  · have hs : List.Pairwise (image_rate_order db)
        (List.insertionSort (image_rate_order db) db.images) :=
      List.sorted_insertionSort (image_rate_order db) db.images
    exact List.Pairwise.map _ (fun a b hab => hab) hs

/-- Witness for C4 amended: the per-image average of the zero-rated image of
dbNoRates is explicit absence. -/
theorem rates_average_spec_witness :
    read_avg_rate_to_photo 1 dbNoRates = { avg_rate := none, image_id := 1 } :=
  (rates_average_spec dbNoRates 1).1 (by decide)

/-! ### Rating creation (create_rate_to_photo) -/

theorem eq_of_mem_of_same_id {l : List Image}
    (h : l.Pairwise fun a b => a.id ≠ b.id) :
    ∀ {x y : Image}, x ∈ l → y ∈ l → x.id = y.id → x = y := by
  induction l with
  | nil => intro x y hx; exact absurd hx (List.not_mem_nil x)
  | cons a l ih =>
    rw [List.pairwise_cons] at h
    intro x y hx hy hxy
    rcases List.mem_cons.1 hx with hx | hx <;> rcases List.mem_cons.1 hy with hy | hy
    · rw [hx, hy]
    · exact absurd (hx ▸ hxy) (h.1 y hy)
    · exact absurd (hy ▸ hxy).symm (h.1 x hx)
    · exact ih h.2 hx hy hxy

/-- C5. Rating creation: the result is the None absence signal (with the
state unchanged) exactly when the image id matches no image, or the image is
found and owned by the acting user, or a Rate of this user on this image
already exists; when the image is found, not owned by the acting user, and no
such Rate exists, exactly one Rate row carrying the requested value is
appended and returned.  Consequently the spec invariant (at most one Rate per
(user, image) pair, never one by the owner) is preserved.  The hypothesis is
the primary-key invariant of the images table. -/
theorem create_rate_spec (image_id : Nat) (body : RateModel) (u : User) (db : DB)
    (hids : db.images.Pairwise fun a b => a.id ≠ b.id) :
    ((create_rate_to_photo image_id body u db).1 = none ↔
       (∀ img ∈ db.images, img.id ≠ image_id)
       ∨ (∃ img, db.images.find? (fun i => decide (i.id = image_id)) = some img
            ∧ img.user_id = u.id)
       ∨ (∃ r ∈ db.rates, r.image_id = image_id ∧ r.user_id = u.id))
    ∧ (∀ photo, db.images.find? (fun i => decide (i.id = image_id)) = some photo →
        photo.user_id ≠ u.id →
        (∀ r ∈ db.rates, ¬(r.image_id = image_id ∧ r.user_id = u.id)) →
        create_rate_to_photo image_id body u db
          = (some (Rate.mk db.nextId image_id u.id body.rate),
             { db with
               rates := db.rates ++ [Rate.mk db.nextId image_id u.id body.rate],
               nextId := db.nextId + 1 }))
    ∧ (RateInvariant db → RateInvariant (create_rate_to_photo image_id body u db).2) := by
  rcases hfind : db.images.find? (fun i => decide (i.id = image_id)) with _ | photo
  · have habs : ∀ img ∈ db.images, img.id ≠ image_id := by
      intro img himg
      have := List.find?_eq_none.1 hfind img himg
      simpa using this
    refine ⟨?_, ?_, ?_⟩
    · simp only [create_rate_to_photo, hfind]
      exact ⟨fun _ => Or.inl habs, fun _ => trivial⟩
    · intro photo hphoto
      rw [hfind] at hphoto
      exact absurd hphoto (by simp)
    · intro hinv
      simpa only [create_rate_to_photo, hfind] using hinv
  · have hphoto_mem : photo ∈ db.images := List.mem_of_find?_eq_some hfind
    have hphoto_id : photo.id = image_id := by
      have := List.find?_some hfind
      simpa using this
    by_cases howner : photo.user_id = u.id
    · have hnegcond : ¬photo.user_id ≠ u.id := by simpa using howner
      refine ⟨?_, ?_, ?_⟩
      · simp only [create_rate_to_photo, hfind, if_neg hnegcond]
        exact ⟨fun _ => Or.inr (Or.inl ⟨photo, rfl, howner⟩), fun _ => trivial⟩
      · intro photo2 hphoto2 hne
        rw [hfind] at hphoto2
        cases hphoto2
        exact absurd howner hne
      · intro hinv
        simpa only [create_rate_to_photo, hfind, if_neg hnegcond] using hinv
    · rcases hdup : db.rates.find?
          (fun r => decide (r.image_id = image_id ∧ r.user_id = u.id)) with _ | r0
      · have hnodup : ∀ r ∈ db.rates, ¬(r.image_id = image_id ∧ r.user_id = u.id) := by
          intro r hr
          have := List.find?_eq_none.1 hdup r hr
          simpa using this
        have hresult : create_rate_to_photo image_id body u db
            = (some (Rate.mk db.nextId image_id u.id body.rate),
               { db with
                 rates := db.rates ++ [Rate.mk db.nextId image_id u.id body.rate],
                 nextId := db.nextId + 1 }) := by
          simp only [create_rate_to_photo, hfind, if_pos howner, hdup]
        refine ⟨?_, ?_, ?_⟩
        · rw [hresult]
          simp only [Option.some_ne_none]
          constructor
          · intro h
            exact absurd h (by simp)
          · intro h
            exfalso
            rcases h with h | h | h
            · exact h photo hphoto_mem hphoto_id
            · rcases h with ⟨img, himg, hown⟩
              rw [hfind] at himg
              cases himg
              exact howner hown
            · rcases h with ⟨r, hr, hprop⟩
              exact hnodup r hr hprop
        · intro photo2 _ _ _
          exact hresult
        · intro hinv
          rw [hresult]
          constructor
          · rw [List.pairwise_append]
            refine ⟨hinv.1, List.pairwise_singleton _ _, ?_⟩
            intro a ha b hb
            rw [List.mem_singleton.1 hb]
            intro hcontra
            exact hnodup a ha hcontra
          · intro r hr img himg hid
            rcases List.mem_append.1 hr with hr | hr
            · exact hinv.2 r hr img himg hid
            · rw [List.mem_singleton.1 hr] at hid ⊢
              have himgid : img.id = photo.id := by
                rw [hphoto_id]
                exact hid
              have himgphoto : img = photo :=
                eq_of_mem_of_same_id hids himg hphoto_mem himgid
              rw [himgphoto]
              intro hcontra
              simp only [Rate.mk.injEq] at hcontra
              exact howner hcontra.symm
      · have hr0 : r0.image_id = image_id ∧ r0.user_id = u.id := by
          have := List.find?_some hdup
          simpa using this
        have hr0_mem : r0 ∈ db.rates := List.mem_of_find?_eq_some hdup
        refine ⟨?_, ?_, ?_⟩
        · simp only [create_rate_to_photo, hfind, if_pos howner, hdup]
          exact ⟨fun _ => Or.inr (Or.inr ⟨r0, hr0_mem, hr0⟩), fun _ => trivial⟩
        · intro photo2 hphoto2 hne hnodup
          exact absurd hr0 (hnodup r0 hr0_mem)
        · intro hinv
          simpa only [create_rate_to_photo, hfind, if_pos howner, hdup] using hinv

/-- Witness for C5 at scenario S3: user 2 rates the image owned by user 1 in
the empty-rates state dbRate; exactly one Rate row with value 4 is inserted
and returned. -/
theorem create_rate_spec_witness :
    create_rate_to_photo 1 { rate := 4 } uOther dbRate
      = (some (Rate.mk 500 1 2 4),
         { dbRate with
           rates := dbRate.rates ++ [Rate.mk 500 1 2 4],
           nextId := 501 }) :=
  (create_rate_spec 1 { rate := 4 } uOther dbRate (by decide)).2.1 imgOne
    (by decide) (by decide) (by decide)

/-! ### Access gate (RoleAccess) -/

/-- C6. Gate totality: the call of a RoleAccess gate allows exactly the users
whose role belongs to the configured allowed list; on denial it raises the
403 Operation forbidden condition; and its outcome is independent of the
request (operation kind).  The gate is a pure function of the role and the
allowed list: it takes no store and produces no effect. -/
theorem role_access_spec (gate : RoleAccess) (u : User) (req req2 : Request) :
    (RoleAccess.call gate req u = Except.ok () ↔ u.role ∈ gate.allowed_roles)
    ∧ (u.role ∉ gate.allowed_roles →
        RoleAccess.call gate req u
          = Except.error (PyErr.httpException 403 "Operation forbidden"))
    ∧ RoleAccess.call gate req u = RoleAccess.call gate req2 u := by
  by_cases h : u.role ∈ gate.allowed_roles <;>
    simp [RoleAccess.call, h]

/-- Witness for C6: a plain user is denied by the admin-only gate with the
403 condition, identically for a GET and a POST request. -/
theorem role_access_spec_witness :
    RoleAccess.call { allowed_roles := [Role.administrator] } reqGet uOther
      = Except.error (PyErr.httpException 403 "Operation forbidden")
    ∧ RoleAccess.call { allowed_roles := [Role.administrator] } reqGet uOther
      = RoleAccess.call { allowed_roles := [Role.administrator] } reqPost uOther :=
  ⟨(role_access_spec { allowed_roles := [Role.administrator] } uOther reqGet reqPost).2.1
     (by decide),
   (role_access_spec { allowed_roles := [Role.administrator] } uOther reqGet reqPost).2.2⟩

/-! ### read_images ignores its user id argument -/

/-- C9. The filter of read_images compares the user_id argument with itself,
so the function returns every image in the store and its result does not
depend on which user id is passed. -/
theorem read_images_ignores_user (u1 u2 : Nat) (db : DB) :
    read_images u1 db = db.images ∧ read_images u1 db = read_images u2 db := by
  have h : ∀ u : Nat, read_images u db = db.images := by
    intro u
    simp [read_images]
  exact ⟨h u1, (h u1).trans (h u2).symm⟩

/-! ### Comment ownership (delete_comment / update_comment) -/

/-- C10. Comment ownership: delete_comment looks a comment up by id only and
deletes and returns it whoever the acting user is (its result does not depend
on the user at all), while update_comment requires the author id to equal the
acting user id in its lookup, returns the absence signal with the state
untouched when no comment satisfies both conditions, and rewrites the text on
a hit. -/
theorem comment_ownership_spec (comment_id : Nat) (body : CommentModel)
    (u u2 : User) (db : DB) :
    (∀ c, db.comments.find? (fun x => decide (x.id = comment_id)) = some c →
       delete_comment comment_id u db
         = (some c, { db with comments := db.comments.erase c }))
    ∧ delete_comment comment_id u db = delete_comment comment_id u2 db
    ∧ ((∀ c ∈ db.comments, ¬(c.id = comment_id ∧ c.user_id = u.id)) →
        update_comment comment_id body u db = (none, db))
    ∧ (∀ c, db.comments.find?
          (fun x => decide (x.id = comment_id ∧ x.user_id = u.id)) = some c →
        update_comment comment_id body u db
          = (some { c with text := body.text },
             { db with
               comments := db.comments.map
                 (fun x => if x.id = c.id then { c with text := body.text } else x) })) := by
  refine ⟨?_, rfl, ?_, ?_⟩
  · intro c hc
    simp only [delete_comment, hc]
  · intro h
    have hnone : db.comments.find?
        (fun c => decide (c.id = comment_id ∧ c.user_id = u.id)) = none := by
      rw [List.find?_eq_none]
      intro x hx
      simpa using h x hx
    simp only [update_comment, hnone]
  · intro c hc
    simp only [update_comment, hc]

/-- Witness for C10: in dbComments the comment with id 1 is authored by
user 1, yet user 2 deletes it successfully, while the same user 2 cannot
update it (absence, state unchanged). -/
theorem comment_ownership_spec_witness :
    delete_comment 1 uOther dbComments
      = (some cRootA, { dbComments with comments := dbComments.comments.erase cRootA })
    ∧ update_comment 1 { text := "x" } uOther dbComments = (none, dbComments) :=
  ⟨(comment_ownership_spec 1 { text := "x" } uOther uOwner dbComments).1 cRootA (by decide),
   (comment_ownership_spec 1 { text := "x" } uOther uOwner dbComments).2.2.1 (by decide)⟩

end PhotoApp
